import Mathlib

/-!
Shallow embedding of `lib/spack/spack/multimethod.py`: the `SpecMultiMethod`
dispatch table, the `when` registration decorator, and the dispatch error
types, together with theorems about their behaviour.

Modelling conventions:
* Python specs (constraints and descriptors) are an opaque type `Spec`
  with an opaque boolean satisfaction test `satisfies c d`, standing for
  the Python call `c.satisfies(d)`.
* A Python function object is a `Method`: a `__name__` together with the
  callable body (receiver and argument list in, result out).
* The Python dict `method_map` is an association list with dict update
  semantics (replace in place on an existing key, append on a new key).
* The optional `__name__` attribute that `functools.update_wrapper`
  installs on the table is an `Option String` field; reading the absent
  attribute is an attribute-access failure, exactly as in Python.
* Raising is modelled with `Except`; `register` mutates `method_map`
  before its assert, so it returns the updated table together with an
  optional assertion failure.
-/

namespace Multimethod

/-- The receiver of a dispatched call: `type(package_self).__name__`
together with the `package_self.spec` descriptor. -/
structure Package (Spec : Type) where
  clsName : String
  spec : Spec

/-- A Python function object: a `__name__` and a body taking the receiver
and the remaining arguments. -/
structure Method (Spec Args Res : Type) where
  name : String
  impl : Package Spec → Args → Res

/-- Python dict update `d[k] = v`: replace the value in place when the key
is present, append the binding otherwise. -/
def dictInsert {K V : Type} [DecidableEq K] (k : K) (v : V) :
    List (K × V) → List (K × V)
  | [] => [(k, v)]
  | (k₀, v₀) :: rest =>
    if k₀ = k then (k₀, v) :: rest else (k₀, v₀) :: dictInsert k v rest

/-- Python dict lookup `d[k]` as an `Option`. -/
def dictGet {K V : Type} [DecidableEq K] (k : K) :
    List (K × V) → Option V
  | [] => none
  | (k₀, v) :: rest => if k₀ = k then some v else dictGet k rest

/-- The dispatch table `SpecMultiMethod`: the constraint-to-implementation
dict, the optional default implementation, and the optional `__name__`
attribute copied by `functools.update_wrapper`. -/
structure SpecMultiMethod (Spec Args Res : Type) where
  method_map : List (Spec × Method Spec Args Res)
  default : Option (Method Spec Args Res)
  name : Option String

/-- `SpecMultiMethod.__init__(default=None)`: empty dict, the given
default, and the name copied from the default when one is given. -/
def SpecMultiMethod.init {Spec Args Res : Type}
    (default : Option (Method Spec Args Res)) :
    SpecMultiMethod Spec Args Res :=
  { method_map := [], default := default, name := default.map Method.name }

/-- Assertion failure raised by `register` when the new implementation
name differs from the established table name. -/
inductive RegError where
  | assertionError
  deriving DecidableEq

/-- `SpecMultiMethod.register(spec, method)`. The dict is updated first;
then, when the table has no `__name__` yet, the method name is adopted,
and otherwise the names are compared, an inequality being an assertion
failure (the dict update survives it, as in the source). -/
def SpecMultiMethod.register {Spec Args Res : Type} [DecidableEq Spec]
    (self : SpecMultiMethod Spec Args Res)
    (spec : Spec) (method : Method Spec Args Res) :
    SpecMultiMethod Spec Args Res × Option RegError :=
  let self₁ : SpecMultiMethod Spec Args Res :=
    { self with method_map := dictInsert spec method self.method_map }
  match self₁.name with
  | none => ({ self₁ with name := some method.name }, none)
  | some n =>
    if n = method.name then (self₁, none)
    else (self₁, some RegError.assertionError)

/-- The errors a dispatched call can raise: the two dispatch errors of the
source, plus the attribute-access failure on a missing `__name__` and the
dict `KeyError` (the latter is unreachable on well-formed tables). -/
inductive MMError (Spec : Type) where
  | noSuchMethodError (clsName : String) (methodName : String)
      (spec : Spec) (possibleSpecs : List Spec)
  | ambiguousMethodError (clsName : String) (methodName : String)
      (spec : Spec) (matchingSpecs : List Spec)
  | attributeError (attrName : String)
  | keyError

/-- `SpecMultiMethod.__call__(package_self, *args, **kwargs)`: filter the
registered constraints by satisfaction against the receiver descriptor,
then dispatch on the number of matches. Argument evaluation order of the
Python `raise` expressions is kept: `self.__name__` is read before either
error object is built. -/
def SpecMultiMethod.call {Spec Args Res : Type} [DecidableEq Spec]
    (satisfies : Spec → Spec → Bool)
    (self : SpecMultiMethod Spec Args Res)
    (package_self : Package Spec) (args : Args) :
    Except (MMError Spec) Res :=
  let spec := package_self.spec
  let matching_specs :=
    (self.method_map.map Prod.fst).filter (fun s => satisfies s spec)
  match matching_specs with
  | [] =>
    match self.default with
    | some d => Except.ok (d.impl package_self args)
    | none =>
      match self.name with
      | none => Except.error (MMError.attributeError "__name__")
      | some n =>
        Except.error (MMError.noSuchMethodError package_self.clsName n
          spec (self.method_map.map Prod.fst))
  | [s] =>
    match dictGet s self.method_map with
    | some method => Except.ok (method.impl package_self args)
    | none => Except.error MMError.keyError
  | _ :: _ :: _ =>
    match self.name with
    | none => Except.error (MMError.attributeError "__name__")
    | some n =>
      Except.error (MMError.ambiguousMethodError package_self.clsName n
        spec matching_specs)

/-- `SpecMultiMethod.__get__(obj, objtype)`: binds the table to the
instance, `functools.partial(self.__call__, obj)`. -/
def SpecMultiMethod.get {Spec Args Res : Type} [DecidableEq Spec]
    (satisfies : Spec → Spec → Bool)
    (self : SpecMultiMethod Spec Args Res) (obj : Package Spec) :
    Args → Except (MMError Spec) Res :=
  fun args => self.call satisfies obj args

/-- `instance.method(args)`: attribute access through the descriptor
protocol followed by the call of the bound result. -/
def SpecMultiMethod.boundCall {Spec Args Res : Type} [DecidableEq Spec]
    (satisfies : Spec → Spec → Bool)
    (self : SpecMultiMethod Spec Args Res) (obj : Package Spec)
    (args : Args) : Except (MMError Spec) Res :=
  (self.get satisfies obj) args

/-- What a name may be bound to in the enclosing class body scope:
nothing, a plain function, or a dispatch table. The exact-type test
`type(original_method) == SpecMultiMethod` distinguishes the third case. -/
inductive Binding (Spec Args Res : Type) where
  | noBinding
  | plainMethod (m : Method Spec Args Res)
  | multimethod (t : SpecMultiMethod Spec Args Res)

/-- The `caller_locals()` scope: bindings by name. -/
def Scope (Spec Args Res : Type) : Type :=
  String → Binding Spec Args Res

/-- Rebinding a name in the scope. -/
def scopeSet {Spec Args Res : Type} (scope : Scope Spec Args Res)
    (n : String) (b : Binding Spec Args Res) : Scope Spec Args Res :=
  fun n₀ => if n₀ = n then b else scope n₀

/-- `when.__call__(method)` with the already-parsed constraint
`self.spec`: look the method name up in the calling scope, wrap a
non-table prior binding (or its absence) into a fresh table as default,
register the pair, and return the table; a registration assertion
failure propagates. -/
def whenCall {Spec Args Res : Type} [DecidableEq Spec]
    (spec : Spec) (method : Method Spec Args Res)
    (scope : Scope Spec Args Res) :
    Except RegError (SpecMultiMethod Spec Args Res) :=
  let original_method := scope method.name
  let table : SpecMultiMethod Spec Args Res :=
    match original_method with
    | Binding.multimethod t => t
    | Binding.plainMethod f => SpecMultiMethod.init (some f)
    | Binding.noBinding => SpecMultiMethod.init none
  match table.register spec method with
  | (t, none) => Except.ok t
  | (_, some e) => Except.error e

/-- One method definition in a class body: either a plain `def`, or a
`def` decorated with `@when(spec)`. -/
inductive Defn (Spec Args Res : Type) where
  | plainDef (m : Method Spec Args Res)
  | constrainedDef (spec : Spec) (m : Method Spec Args Res)

/-- Processing one definition in a class body: a plain `def` rebinds the
name to the function; a decorated `def` runs `when.__call__` and rebinds
the name to the returned table. -/
def processDefn {Spec Args Res : Type} [DecidableEq Spec]
    (scope : Scope Spec Args Res) :
    Defn Spec Args Res → Except RegError (Scope Spec Args Res)
  | Defn.plainDef m =>
    Except.ok (scopeSet scope m.name (Binding.plainMethod m))
  | Defn.constrainedDef spec m =>
    match whenCall spec m scope with
    | Except.ok t => Except.ok (scopeSet scope m.name (Binding.multimethod t))
    | Except.error e => Except.error e

/-- Processing a class body: the definitions in order, an error aborting
the rest. -/
def processBody {Spec Args Res : Type} [DecidableEq Spec]
    (scope : Scope Spec Args Res) :
    List (Defn Spec Args Res) → Except RegError (Scope Spec Args Res)
  | [] => Except.ok scope
  | d :: ds =>
    match processDefn scope d with
    | Except.ok scope₁ => processBody scope₁ ds
    | Except.error e => Except.error e

/-- Invoking whatever a name is bound to, on a receiver and arguments: a
plain function is applied directly, a table dispatches, a missing
binding is an attribute-access failure on the receiver. -/
def Binding.invoke {Spec Args Res : Type} [DecidableEq Spec]
    (satisfies : Spec → Spec → Bool) :
    Binding Spec Args Res → Package Spec → Args → Except (MMError Spec) Res
  | Binding.plainMethod m, pkg, args => Except.ok (m.impl pkg args)
  | Binding.multimethod t, pkg, args => t.call satisfies pkg args
  | Binding.noBinding, pkg, _ =>
    Except.error (MMError.attributeError pkg.clsName)

/-- Python `sep.join(parts)`. -/
def joinSep (sep : String) : List String → String
  | [] => ""
  | [x] => x
  | x :: y :: rest => x ++ (sep ++ joinSep sep (y :: rest))

/-- The rendered message of each error, following the `%` format strings
of `NoSuchMethodError.__init__` and `AmbiguousMethodError.__init__`;
`specStr` stands for `str` on specs. -/
def MMError.message {Spec : Type} (specStr : Spec → String) :
    MMError Spec → String
  | MMError.noSuchMethodError cls m s ps =>
    "Package " ++ (cls ++ (" does not support " ++ (m ++ (" called with " ++
      (specStr s ++ (".  Options are: " ++ joinSep ", " (ps.map specStr)))))))
  | MMError.ambiguousMethodError cls m s ms =>
    "Package " ++ (cls ++ (" has multiple versions of " ++ (m ++
      (" that match " ++ (specStr s ++ (": " ++ joinSep "," (ms.map specStr)))))))
  | MMError.attributeError a =>
    "AttributeError: " ++ a
  | MMError.keyError => "KeyError"

/-- `part` occurs as a contiguous substring of `msg`. -/
def mentions (msg part : String) : Prop :=
  ∃ pre post : String, msg = pre ++ (part ++ post)

theorem mentions_head (part post : String) : mentions (part ++ post) part :=
  ⟨"", post, (String.empty_append (part ++ post)).symm⟩

theorem mentions_shift (x : String) {m part : String}
    (h : mentions m part) : mentions (x ++ m) part := by
  obtain ⟨a, b, rfl⟩ := h
  exact ⟨x ++ a, b, (String.append_assoc x a (part ++ b)).symm⟩

theorem mentions_joinSep {sep : String} {l : List String} {x : String}
    (h : x ∈ l) : mentions (joinSep sep l) x := by
  induction l with
  | nil => cases h
  | cons a rest ih =>
    cases rest with
    | nil =>
      rcases List.mem_singleton.mp h with rfl
      exact ⟨"", "", by
        show x = "" ++ (x ++ "")
        rw [String.empty_append, String.append_empty]⟩
    | cons b rest₁ =>
      rcases List.mem_cons.mp h with rfl | hmem
      · exact mentions_head x (sep ++ joinSep sep (b :: rest₁))
      · exact mentions_shift a (mentions_shift sep (ih hmem))

theorem dictGet_dictInsert_self {K V : Type} [DecidableEq K] (k : K) (v : V) :
    ∀ l : List (K × V), dictGet k (dictInsert k v l) = some v
  | [] => by simp [dictInsert, dictGet]
  | (k₀, v₀) :: rest => by
    by_cases h : k₀ = k
    · simp [dictInsert, dictGet, h]
    · simp [dictInsert, dictGet, h, dictGet_dictInsert_self k v rest]

theorem dictGet_dictInsert_ne {K V : Type} [DecidableEq K] {k c : K}
    (h : c ≠ k) (v : V) :
    ∀ l : List (K × V), dictGet c (dictInsert k v l) = dictGet c l
  | [] => by simp [dictInsert, dictGet, Ne.symm h]
  | (k₀, v₀) :: rest => by
    by_cases hk : k₀ = k
    · subst hk
      simp [dictInsert, dictGet, Ne.symm h]
    · simp [dictInsert, dictGet, hk, dictGet_dictInsert_ne h v rest]

theorem noSuchMethod_message_parts {Spec : Type} (specStr : Spec → String)
    (cls n : String) (s : Spec) (ps : List Spec) :
    mentions ((MMError.noSuchMethodError cls n s ps).message specStr) cls ∧
    mentions ((MMError.noSuchMethodError cls n s ps).message specStr) n ∧
    mentions ((MMError.noSuchMethodError cls n s ps).message specStr) (specStr s) ∧
    ∀ c ∈ ps,
      mentions ((MMError.noSuchMethodError cls n s ps).message specStr) (specStr c) := by
  refine ⟨?_, ?_, ?_, ?_⟩
  · exact mentions_shift "Package " (mentions_head cls _)
  · exact mentions_shift "Package " (mentions_shift cls
      (mentions_shift " does not support " (mentions_head n _)))
  · exact mentions_shift "Package " (mentions_shift cls
      (mentions_shift " does not support " (mentions_shift n
      (mentions_shift " called with " (mentions_head (specStr s) _)))))
  · intro c hc
    exact mentions_shift "Package " (mentions_shift cls
      (mentions_shift " does not support " (mentions_shift n
      (mentions_shift " called with " (mentions_shift (specStr s)
      (mentions_shift ".  Options are: "
        (mentions_joinSep (List.mem_map_of_mem specStr hc))))))))

theorem ambiguous_message_parts {Spec : Type} (specStr : Spec → String)
    (cls n : String) (s : Spec) (ms : List Spec) :
    mentions ((MMError.ambiguousMethodError cls n s ms).message specStr) cls ∧
    mentions ((MMError.ambiguousMethodError cls n s ms).message specStr) n ∧
    mentions ((MMError.ambiguousMethodError cls n s ms).message specStr) (specStr s) ∧
    ∀ c ∈ ms,
      mentions ((MMError.ambiguousMethodError cls n s ms).message specStr) (specStr c) := by
  refine ⟨?_, ?_, ?_, ?_⟩
  · exact mentions_shift "Package " (mentions_head cls _)
  · exact mentions_shift "Package " (mentions_shift cls
      (mentions_shift " has multiple versions of " (mentions_head n _)))
  · exact mentions_shift "Package " (mentions_shift cls
      (mentions_shift " has multiple versions of " (mentions_shift n
      (mentions_shift " that match " (mentions_head (specStr s) _)))))
  · intro c hc
    exact mentions_shift "Package " (mentions_shift cls
      (mentions_shift " has multiple versions of " (mentions_shift n
      (mentions_shift " that match " (mentions_shift (specStr s)
      (mentions_shift ": " (mentions_joinSep (List.mem_map_of_mem specStr hc))))))))

/-- Concrete fixture: a constrained implementation for spec 1. -/
def exInstall₁ : Method Nat Nat Nat :=
  { name := "install", impl := fun p a => p.spec * 100 + a }

/-- Concrete fixture: a constrained implementation for spec 2. -/
def exInstall₂ : Method Nat Nat Nat :=
  { name := "install", impl := fun p a => p.spec * 200 + a }

/-- Concrete fixture: a default implementation. -/
def exDefault : Method Nat Nat Nat :=
  { name := "install", impl := fun _ a => 999 + a }

/-- Concrete fixture: satisfaction is equality of numeric specs. -/
def exSat : Nat → Nat → Bool := fun c d => c == d

/-- Concrete fixture: a populated table with default and two entries. -/
def exTable : SpecMultiMethod Nat Nat Nat :=
  { method_map := [(1, exInstall₁), (2, exInstall₂)],
    default := some exDefault, name := some "install" }

/-- Concrete fixture: the same table without a default. -/
def exTableND : SpecMultiMethod Nat Nat Nat :=
  { method_map := [(1, exInstall₁), (2, exInstall₂)],
    default := none, name := some "install" }

/-- Claim C1: when the receiver descriptor satisfies exactly one
registered constraint, the call invokes exactly the implementation
registered for that constraint, passes the receiver and the arguments
through, and returns its result unchanged. -/
theorem dispatch_unique_match {Spec Args Res : Type} [DecidableEq Spec]
    (satisfies : Spec → Spec → Bool) (self : SpecMultiMethod Spec Args Res)
    (pkg : Package Spec) (args : Args) (s : Spec)
    (method : Method Spec Args Res)
    (hmatch : (self.method_map.map Prod.fst).filter
      (fun c => satisfies c pkg.spec) = [s])
    (hget : dictGet s self.method_map = some method) :
    self.call satisfies pkg args = Except.ok (method.impl pkg args) := by
  simp only [SpecMultiMethod.call, hmatch, hget]

/-- Witness for C1: on spec 1, the table dispatches to the entry
registered under constraint 1. -/
theorem dispatch_unique_match_witness :
    exTable.call exSat ⟨"Pkg", 1⟩ 7 =
      Except.ok (exInstall₁.impl ⟨"Pkg", 1⟩ 7) :=
  dispatch_unique_match exSat exTable ⟨"Pkg", 1⟩ 7 1 exInstall₁
    (by decide) rfl

/-- Claim C5: registering into a table with an established name asserts
when the new implementation name differs, and registering into a table
with no established name adopts the implementation name and succeeds. -/
theorem register_name_consistency {Spec Args Res : Type} [DecidableEq Spec]
    (self : SpecMultiMethod Spec Args Res) (spec : Spec)
    (method : Method Spec Args Res) :
    (∀ n, self.name = some n → n ≠ method.name →
      (self.register spec method).2 = some RegError.assertionError) ∧
    (self.name = none →
      (self.register spec method).2 = none ∧
      (self.register spec method).1.name = some method.name) := by
  constructor
  · intro n hn hne
    simp [SpecMultiMethod.register, hn, hne]
  · intro h
    simp [SpecMultiMethod.register, h]

/-- Witness for C5: registering a method named setup into the install
table asserts; registering it into a fresh anonymous table succeeds and
the table adopts the name setup. -/
theorem register_name_consistency_witness :
    (exTable.register 3 ⟨"setup", fun _ a => a⟩).2 =
      some RegError.assertionError ∧
    ((SpecMultiMethod.init none).register 3
      ⟨"setup", fun (_ : Package Nat) (a : Nat) => a⟩).2 = none ∧
    ((SpecMultiMethod.init none).register 3
      ⟨"setup", fun (_ : Package Nat) (a : Nat) => a⟩).1.name = some "setup" :=
  ⟨(register_name_consistency exTable 3 ⟨"setup", fun _ a => a⟩).1
      "install" rfl (by decide),
   ((register_name_consistency (SpecMultiMethod.init none) 3
      ⟨"setup", fun _ a => a⟩).2 rfl).1,
   ((register_name_consistency (SpecMultiMethod.init none) 3
      ⟨"setup", fun _ a => a⟩).2 rfl).2⟩

/-- Claim C6, code behaviour: a table constructed with no default and no
registered entries has no name attribute, so any call raises the
attribute-access failure on the missing name while the arguments of the
intended no-match error are being evaluated — not the no-match error
itself. -/
theorem empty_table_call_attribute_error {Spec Args Res : Type}
    [DecidableEq Spec] (satisfies : Spec → Spec → Bool)
    (pkg : Package Spec) (args : Args) :
    ((SpecMultiMethod.init none : SpecMultiMethod Spec Args Res)).call
        satisfies pkg args =
      Except.error (MMError.attributeError "__name__") := rfl

/-- Claim C7: re-registering an already present constraint replaces only
the implementation stored under that constraint; every other entry, the
default, and the name are unchanged, and the registration succeeds. -/
theorem register_last_write_wins {Spec Args Res : Type} [DecidableEq Spec]
    (self : SpecMultiMethod Spec Args Res) (spec : Spec)
    (method old : Method Spec Args Res)
    (hold : dictGet spec self.method_map = some old)
    (hname : self.name = some method.name) :
    (self.register spec method).2 = none ∧
    dictGet spec (self.register spec method).1.method_map = some method ∧
    (∀ c, c ≠ spec →
      dictGet c (self.register spec method).1.method_map =
        dictGet c self.method_map) ∧
    (self.register spec method).1.default = self.default ∧
    (self.register spec method).1.name = self.name := by
  refine ⟨?_, ?_, ?_, ?_, ?_⟩
  · simp [SpecMultiMethod.register, hname]
  · simp [SpecMultiMethod.register, hname, dictGet_dictInsert_self]
  · intro c hc
    simp [SpecMultiMethod.register, hname, dictGet_dictInsert_ne hc]
  · simp [SpecMultiMethod.register, hname]
  · simp [SpecMultiMethod.register, hname]

/-- Witness for C7: overwriting the entry under constraint 1 leaves the
entry under constraint 2 and the default untouched. -/
theorem register_last_write_wins_witness :
    (exTable.register 1 exInstall₂).2 = none ∧
    dictGet 1 (exTable.register 1 exInstall₂).1.method_map =
      some exInstall₂ ∧
    dictGet 2 (exTable.register 1 exInstall₂).1.method_map =
      dictGet 2 exTable.method_map ∧
    (exTable.register 1 exInstall₂).1.default = exTable.default :=
  let h := register_last_write_wins exTable 1 exInstall₂ exInstall₁ rfl rfl
  ⟨h.1, h.2.1, h.2.2.1 2 (by decide), h.2.2.2.1⟩

/-- Claim C8: accessing the table through an instance and calling the
bound result is the same as calling the table directly with the instance
as first argument. -/
theorem bound_call_eq_direct_call {Spec Args Res : Type} [DecidableEq Spec]
    (satisfies : Spec → Spec → Bool)
    (self : SpecMultiMethod Spec Args Res) (obj : Package Spec)
    (args : Args) :
    self.boundCall satisfies obj args = self.call satisfies obj args := rfl

/-- Claim C2: when the receiver descriptor satisfies none of the
registered constraints, the call invokes the default with the receiver
and the original arguments when a default is set; with no default it
fails with the no-match error, whose message contains the receiver type
name, the method name, the rendered descriptor, and the rendering of
every registered constraint. -/
theorem dispatch_no_match {Spec Args Res : Type} [DecidableEq Spec]
    (satisfies : Spec → Spec → Bool) (specStr : Spec → String)
    (self : SpecMultiMethod Spec Args Res) (pkg : Package Spec)
    (args : Args)
    (hmatch : (self.method_map.map Prod.fst).filter
      (fun c => satisfies c pkg.spec) = []) :
    (∀ d, self.default = some d →
      self.call satisfies pkg args = Except.ok (d.impl pkg args)) ∧
    (self.default = none → ∀ n, self.name = some n →
      self.call satisfies pkg args =
        Except.error (MMError.noSuchMethodError pkg.clsName n pkg.spec
          (self.method_map.map Prod.fst)) ∧
      mentions ((MMError.noSuchMethodError pkg.clsName n pkg.spec
        (self.method_map.map Prod.fst)).message specStr) pkg.clsName ∧
      mentions ((MMError.noSuchMethodError pkg.clsName n pkg.spec
        (self.method_map.map Prod.fst)).message specStr) n ∧
      mentions ((MMError.noSuchMethodError pkg.clsName n pkg.spec
        (self.method_map.map Prod.fst)).message specStr) (specStr pkg.spec) ∧
      ∀ c ∈ self.method_map.map Prod.fst,
        mentions ((MMError.noSuchMethodError pkg.clsName n pkg.spec
          (self.method_map.map Prod.fst)).message specStr) (specStr c)) := by
  constructor
  · intro d hd
    simp only [SpecMultiMethod.call, hmatch, hd]
  · intro hd n hn
    have hmsg := noSuchMethod_message_parts specStr pkg.clsName n pkg.spec
      (self.method_map.map Prod.fst)
    exact ⟨by simp only [SpecMultiMethod.call, hmatch, hd, hn],
      hmsg.1, hmsg.2.1, hmsg.2.2.1, hmsg.2.2.2⟩

/-- Witness for C2: on the unmatched spec 5, the table with a default
falls back to it, and the table without a default raises the no-match
error carrying the full constraint list. -/
theorem dispatch_no_match_witness :
    exTable.call exSat ⟨"Pkg", 5⟩ 7 =
      Except.ok (exDefault.impl ⟨"Pkg", 5⟩ 7) ∧
    exTableND.call exSat ⟨"Pkg", 5⟩ 7 =
      Except.error (MMError.noSuchMethodError "Pkg" "install" 5 [1, 2]) :=
  ⟨(dispatch_no_match exSat toString exTable ⟨"Pkg", 5⟩ 7 (by decide)).1
      exDefault rfl,
   ((dispatch_no_match exSat toString exTableND ⟨"Pkg", 5⟩ 7 (by decide)).2
      rfl "install" rfl).1⟩

/-- Claim C3: when the receiver descriptor satisfies two or more
registered constraints, the call fails with the ambiguity error — no
implementation result is ever returned — and the message contains the
receiver type name, the method name, the rendered descriptor, and the
rendering of every matching constraint. -/
theorem dispatch_ambiguous {Spec Args Res : Type} [DecidableEq Spec]
    (satisfies : Spec → Spec → Bool) (specStr : Spec → String)
    (self : SpecMultiMethod Spec Args Res) (pkg : Package Spec)
    (args : Args) (n : String) (s₁ s₂ : Spec) (rest : List Spec)
    (hmatch : (self.method_map.map Prod.fst).filter
      (fun c => satisfies c pkg.spec) = s₁ :: s₂ :: rest)
    (hname : self.name = some n) :
    self.call satisfies pkg args =
      Except.error (MMError.ambiguousMethodError pkg.clsName n pkg.spec
        (s₁ :: s₂ :: rest)) ∧
    (∀ r : Res, self.call satisfies pkg args ≠ Except.ok r) ∧
    mentions ((MMError.ambiguousMethodError pkg.clsName n pkg.spec
      (s₁ :: s₂ :: rest)).message specStr) pkg.clsName ∧
    mentions ((MMError.ambiguousMethodError pkg.clsName n pkg.spec
      (s₁ :: s₂ :: rest)).message specStr) n ∧
    mentions ((MMError.ambiguousMethodError pkg.clsName n pkg.spec
      (s₁ :: s₂ :: rest)).message specStr) (specStr pkg.spec) ∧
    ∀ c ∈ s₁ :: s₂ :: rest,
      mentions ((MMError.ambiguousMethodError pkg.clsName n pkg.spec
        (s₁ :: s₂ :: rest)).message specStr) (specStr c) := by
  have hcall : self.call satisfies pkg args =
      Except.error (MMError.ambiguousMethodError pkg.clsName n pkg.spec
        (s₁ :: s₂ :: rest)) := by
    simp only [SpecMultiMethod.call, hmatch, hname]
  have hmsg := ambiguous_message_parts specStr pkg.clsName n pkg.spec
    (s₁ :: s₂ :: rest)
  refine ⟨hcall, ?_, hmsg.1, hmsg.2.1, hmsg.2.2.1, hmsg.2.2.2⟩
  intro r hr
  rw [hcall] at hr
  cases hr

/-- Witness for C3: under a satisfaction test that matches everything,
the table raises the ambiguity error naming both constraints. -/
theorem dispatch_ambiguous_witness :
    exTable.call (fun _ _ => true) ⟨"Pkg", 5⟩ 7 =
      Except.error (MMError.ambiguousMethodError "Pkg" "install" 5 [1, 2]) :=
  (dispatch_ambiguous (fun _ _ => true) toString exTable ⟨"Pkg", 5⟩ 7
    "install" 1 2 [] (by decide) rfl).1

/-- Claim C4: when the prior binding under the method name is not a
table, the decorator builds a fresh table whose default is that prior
binding (no default when there was no prior binding), registers the pair
on it, and returns the table. -/
theorem when_wraps_prior {Spec Args Res : Type} [DecidableEq Spec]
    (spec : Spec) (method : Method Spec Args Res)
    (scope : Scope Spec Args Res) :
    (scope method.name = Binding.noBinding →
      whenCall spec method scope = Except.ok
        { method_map := [(spec, method)], default := none,
          name := some method.name }) ∧
    (∀ f, scope method.name = Binding.plainMethod f → f.name = method.name →
      whenCall spec method scope = Except.ok
        { method_map := [(spec, method)], default := some f,
          name := some f.name }) := by
  constructor
  · intro h
    simp [whenCall, h, SpecMultiMethod.init, SpecMultiMethod.register,
      dictInsert]
  · intro f h hf
    simp [whenCall, h, SpecMultiMethod.init, SpecMultiMethod.register,
      dictInsert, hf]

/-- Witness for C4: decorating install when the name is bound to a plain
function yields a table with that function as default and the single new
entry; decorating when the name is unbound yields a table with no
default. -/
theorem when_wraps_prior_witness :
    whenCall 1 exInstall₁
      (fun n => if n = "install" then Binding.plainMethod exDefault
        else Binding.noBinding) =
      Except.ok { method_map := [(1, exInstall₁)],
                  default := some exDefault,
                  name := some exDefault.name } ∧
    whenCall 1 exInstall₁ (fun _ => Binding.noBinding) =
      Except.ok { method_map := [(1, exInstall₁)],
                  default := none,
                  name := some exInstall₁.name } :=
  ⟨(when_wraps_prior 1 exInstall₁
      (fun n => if n = "install" then Binding.plainMethod exDefault
        else Binding.noBinding)).2 exDefault rfl rfl,
   (when_wraps_prior 1 exInstall₁ (fun _ => Binding.noBinding)).1 rfl⟩

/-- Claim C10: when the prior binding under the method name is already a
table, the decorator registers into that very table and returns it: the
default and the name are kept, the entry under the new constraint is the
new implementation, and every entry under another constraint is
unchanged. -/
theorem when_extends_existing_table {Spec Args Res : Type} [DecidableEq Spec]
    (spec : Spec) (method : Method Spec Args Res)
    (scope : Scope Spec Args Res) (t : SpecMultiMethod Spec Args Res)
    (hprior : scope method.name = Binding.multimethod t)
    (hname : t.name = some method.name) :
    whenCall spec method scope = Except.ok
      { method_map := dictInsert spec method t.method_map,
        default := t.default, name := t.name } ∧
    dictGet spec (dictInsert spec method t.method_map) = some method ∧
    (∀ c, c ≠ spec →
      dictGet c (dictInsert spec method t.method_map) =
        dictGet c t.method_map) := by
  refine ⟨?_, dictGet_dictInsert_self spec method t.method_map,
    fun c hc => dictGet_dictInsert_ne hc method t.method_map⟩
  simp [whenCall, hprior, SpecMultiMethod.register, hname]

/-- Witness for C10: adding constraint 3 to the populated install table
returns the extended table with the default kept and the entry under
constraint 2 untouched. -/
theorem when_extends_existing_table_witness :
    whenCall 3 exInstall₁
      (fun n => if n = "install" then Binding.multimethod exTable
        else Binding.noBinding) =
      Except.ok { method_map := [(1, exInstall₁), (2, exInstall₂),
                                 (3, exInstall₁)],
                  default := some exDefault,
                  name := some "install" } ∧
    dictGet 2 (dictInsert 3 exInstall₁ exTable.method_map) =
      dictGet 2 exTable.method_map :=
  let h := when_extends_existing_table 3 exInstall₁
    (fun n => if n = "install" then Binding.multimethod exTable
      else Binding.noBinding) exTable rfl rfl
  ⟨h.1, h.2.2 2 (by decide)⟩

theorem processBody_append {Spec Args Res : Type} [DecidableEq Spec] :
    ∀ (ds : List (Defn Spec Args Res)) (scope scope₁ : Scope Spec Args Res),
      processBody scope ds = Except.ok scope₁ →
      ∀ es, processBody scope (ds ++ es) = processBody scope₁ es
  | [], scope, scope₁, h, es => by
    simp only [processBody] at h
    cases h
    rfl
  | d :: ds, scope, scope₁, h, es => by
    rw [List.cons_append]
    simp only [processBody] at h ⊢
    cases hd : processDefn scope d with
    | ok scope₂ =>
      rw [hd] at h
      exact processBody_append ds scope₂ scope₁ h es
    | error e =>
      rw [hd] at h
      simp at h

/-- Claim C9: processing an unconstrained definition after any earlier
definitions of the same name rebinds the name to the plain function,
discarding the earlier table: the resulting binding is exactly the later
unconstrained implementation, and invoking it returns that
implementation on every receiver descriptor. -/
theorem later_plain_def_overrides {Spec Args Res : Type} [DecidableEq Spec]
    (satisfies : Spec → Spec → Bool)
    (scope scope₁ : Scope Spec Args Res) (ds : List (Defn Spec Args Res))
    (m : Method Spec Args Res)
    (h : processBody scope ds = Except.ok scope₁) :
    processBody scope (ds ++ [Defn.plainDef m]) =
      Except.ok (scopeSet scope₁ m.name (Binding.plainMethod m)) ∧
    scopeSet scope₁ m.name (Binding.plainMethod m) m.name =
      Binding.plainMethod m ∧
    ∀ (pkg : Package Spec) (args : Args),
      (scopeSet scope₁ m.name (Binding.plainMethod m) m.name).invoke
          satisfies pkg args =
        Except.ok (m.impl pkg args) := by
  refine ⟨?_, ?_, ?_⟩
  · rw [processBody_append ds scope scope₁ h]
    simp [processBody, processDefn]
  · simp [scopeSet]
  · intro pkg args
    simp [scopeSet, Binding.invoke]

/-- Concrete fixture for C9: the scope after processing one constrained
install definition starting from the empty scope. -/
def exScopeAfter : Scope Nat Nat Nat :=
  scopeSet (fun _ => Binding.noBinding) "install"
    (Binding.multimethod
      { method_map := [(1, exInstall₁)], default := none,
        name := some "install" })

/-- Witness for C9: after a constrained install definition, a plain
install definition replaces the table, and calling the final binding on
a descriptor the constraint matched returns the plain implementation. -/
theorem later_plain_def_overrides_witness :
    processBody (fun _ => Binding.noBinding)
      [Defn.constrainedDef 1 exInstall₁, Defn.plainDef exInstall₂] =
      Except.ok (scopeSet exScopeAfter "install"
        (Binding.plainMethod exInstall₂)) ∧
    (scopeSet exScopeAfter "install"
        (Binding.plainMethod exInstall₂) "install").invoke exSat
        ⟨"Pkg", 1⟩ 7 =
      Except.ok (exInstall₂.impl ⟨"Pkg", 1⟩ 7) :=
  let h := later_plain_def_overrides exSat (fun _ => Binding.noBinding)
    exScopeAfter [Defn.constrainedDef 1 exInstall₁] exInstall₂ rfl
  ⟨h.1, h.2.2 ⟨"Pkg", 1⟩ 7⟩

end Multimethod
